import Mathlib

/-!
Verification of `src/animatediff/settings.py`: a layered-settings resolver
(JSON file source merged with init arguments) plus two LRU-cached config
accessors (`get_model_config`, `get_infer_config`).

Embedding conventions:
* Python/JSON dynamic values are `JVal` (JSON values plus `pathlib.Path`
  objects, which appear only in init kwargs, never in parsed JSON).
* Python `dict`s are association lists `List (String × JVal)` with the
  insertion-order / key-replacement semantics of CPython dicts.
* The file system is a map from path strings to parsed top-level JSON
  objects: a path is "an existing regular file" iff it is in the map
  (`path.exists() and path.is_file()`), and reading+`json.loads` yields the
  stored object.  Text encoding (`env_file_encoding`) is invisible at this
  level because contents are stored already parsed.
* Exceptions are `Except`.
-/

/-- Dynamic values: the JSON value forms produced by `json.loads` (with
Python's int/float distinction kept, floats modelled as rationals), plus
`pathlib.Path` objects as they occur in init kwargs. -/
inductive JVal where
  | str (s : String)
  | int (n : Int)
  | float (q : Rat)
  | bool (b : Bool)
  | null
  | arr (xs : List JVal)
  | obj (kvs : List (String × JVal))
  | path (p : String)
deriving Repr

/-- A Python dict with string keys: association list in insertion order. -/
abbrev JObject := List (String × JVal)

/-- Lookup of a key in a dict (first occurrence; dicts built by the
operations below keep keys unique). -/
def lookupKey (d : JObject) (k : String) : Option JVal :=
  (d.find? (fun kv => kv.1 = k)).map (fun kv => kv.2)

/-- CPython `d[k] = v`: replace in place if the key is present, else append. -/
def setKey (d : JObject) (k : String) (v : JVal) : JObject :=
  if d.any (fun kv => kv.1 = k) then
    d.map (fun kv => if kv.1 = k then (k, v) else kv)
  else
    d ++ [(k, v)]

/-- CPython `d.update(e)`: assign every key/value pair of `e` into `d`,
in `e`'s order. -/
def dictUpdate (d e : JObject) : JObject :=
  e.foldl (fun acc kv => setKey acc kv.1 kv.2) d

/-- CPython `d.pop(k, default)`: the value at `k` (or the default) together
with the dict with `k` removed. -/
def dictPop (d : JObject) (k : String) (default : JVal) : JVal × JObject :=
  ((lookupKey d k).getD default, d.filter (fun kv => kv.1 ≠ k))

/-- File system model: existing regular files, each holding a parsed
top-level JSON object. -/
abbrev FS := List (String × JObject)

/-- Model of Python `path.exists() and path.is_file()`. -/
def FS.isFile (fs : FS) (p : String) : Bool :=
  fs.any (fun f => f.1 = p)

/-- Model of `json.loads(path.read_text(encoding=encoding))` for a path
that is a regular file. -/
def FS.read (fs : FS) (p : String) : JObject :=
  ((fs.find? (fun f => f.1 = p)).map (fun f => f.2)).getD []

/-- The `FileNotFoundError` raised by `JsonSettingsSource.__call__`,
kept structured: the class name, the 1-based index interpolated as
`idx+1`, and the offending path. -/
structure FileNotFoundErr where
  classname : String
  index : Nat
  path : String
deriving Repr, DecidableEq

/-- The message string the source interpolates into the exception. -/
def FileNotFoundErr.msg (e : FileNotFoundErr) : String :=
  e.classname ++ ": config #" ++ toString e.index ++ " at " ++ e.path ++
    " not found or not a file"

/-- State of a `JsonSettingsSource` after `__init__`: the normalized list
of paths stored in `self.json_config_path`. -/
structure JsonSettingsSource where
  json_config_path : List String
deriving Repr, DecidableEq

/-- Model of `JsonSettingsSource.__init__`: a list argument is taken as-is (each
element through `Path`), a non-`None` scalar becomes a one-element list,
and `None` becomes the empty list.  `Path` on a path-like value is the
identity in this model; non-path-like values would raise `TypeError` in
Python and are unreachable from the declared parameter type, so they are
normalized to no paths here (no claim exercises them). -/
def JsonSettingsSource.ofArg (json_config_path : JVal) : JsonSettingsSource :=
  match json_config_path with
  | .arr ps => ⟨ps.filterMap (fun v => match v with
      | .path p => some p
      | .str s => some s
      | _ => Option.none)⟩
  | .null => ⟨[]⟩
  | .path p => ⟨[p]⟩
  | .str s => ⟨[s]⟩
  | _ => ⟨[]⟩

/-- Body of the `for idx, path in enumerate(self.json_config_path)` loop of
`JsonSettingsSource.__call__`: merge each existing regular file into the
accumulator, raise `FileNotFoundError` at the first path that is not an
existing regular file.  `idx` is the running `enumerate` counter. -/
def callLoop (classname : String) (fs : FS) (merged : JObject) (idx : Nat) :
    List String → Except FileNotFoundErr JObject
  | [] => .ok merged
  | p :: rest =>
    if fs.isFile p then
      callLoop classname fs (dictUpdate merged (fs.read p)) (idx + 1) rest
    else
      .error ⟨classname, idx + 1, p⟩

/-- Model of `JsonSettingsSource.__call__`: start from an empty dict and run the
merge loop over the stored paths. -/
def JsonSettingsSource.call (src : JsonSettingsSource) (classname : String)
    (fs : FS) : Except FileNotFoundErr JObject :=
  callLoop classname fs [] 0 src.json_config_path

/-- Result of `JsonConfig.customise_sources`: the tuple
`(init_settings, json_settings)` of settings sources, the init source
carrying its kwargs after the pop. -/
structure SourcesResult where
  init_settings : JObject
  json_settings : JsonSettingsSource
deriving Repr

/-- Model of `JsonConfig.customise_sources`: pop `json_config_path` from the init
kwargs (falling back to the class variable, which is `None` on `JsonConfig`
itself and inherited unchanged by the `Config` classes of `ModelConfig`
and `InferenceConfig`), build the JSON source from it, and return only
`(init_settings, json_settings)` — the `env_settings` and
`file_secret_settings` parameters are dropped. -/
def JsonConfig.customise_sources (cls_json_config_path : JVal)
    (init_kwargs env_settings file_secret_settings : JObject) : SourcesResult :=
  let popped := dictPop init_kwargs "json_config_path" cls_json_config_path
  let _ := env_settings
  let _ := file_secret_settings
  { init_settings := popped.2
    json_settings := JsonSettingsSource.ofArg popped.1 }

/-- Modelled from the spec: the base settings framework (outside this
repository's sources) consults the sources returned by
`customise_sources` in order and merges their outputs with earlier
sources overriding later ones on key collision ("first-wins"); the
resulting mapping feeds field validation. -/
def buildValues (r : SourcesResult) (classname : String) (fs : FS) :
    Except FileNotFoundErr JObject :=
  match r.json_settings.call classname fs with
  | .error e => .error e
  | .ok jm => .ok (dictUpdate jm r.init_settings)

/-- Modelled from the spec: a `str` field accepts a string value and
rejects type-incompatible values. -/
def asStr : JVal → Except String String
  | .str s => .ok s
  | _ => .error "str type expected"

/-- Modelled from the spec: a `Path` field accepts a path or a file path
string and rejects type-incompatible values. -/
def asPath : JVal → Except String String
  | .path p => .ok p
  | .str s => .ok s
  | _ => .error "value is not a valid path"

/-- Modelled from the spec: an `int` field accepts an integer and rejects
type-incompatible values. -/
def asInt : JVal → Except String Int
  | .int n => .ok n
  | _ => .error "value is not a valid integer"

/-- Modelled from the spec: a `float` field accepts a float (or an
integer, widened) and rejects type-incompatible values. -/
def asFloat : JVal → Except String Rat
  | .float q => .ok q
  | .int n => .ok (n : Rat)
  | _ => .error "value is not a valid float"

/-- Modelled from the spec: a `list[int]` field accepts a list of
integers. -/
def asIntList : JVal → Except String (List Int)
  | .arr xs => xs.mapM asInt
  | _ => .error "value is not a valid list"

/-- Modelled from the spec: a `list[str]` field accepts a list of
strings. -/
def asStrList : JVal → Except String (List String)
  | .arr xs => xs.mapM asStr
  | _ => .error "value is not a valid list"

/-- Modelled from the spec: a free-form `dict` field accepts a JSON
object. -/
def asDict : JVal → Except String JObject
  | .obj kvs => .ok kvs
  | _ => .error "value is not a valid dict"

/-- A required field (`Field(...)`): absent means "field required". -/
def requiredField (m : JObject) (k : String) (v : JVal → Except String α) :
    Except String α :=
  match lookupKey m k with
  | some x => v x
  | Option.none => .error "field required"

/-- An optional field: absent means the declared default. -/
def optionalField (m : JObject) (k : String) (v : JVal → Except String α)
    (default : α) : Except String α :=
  match lookupKey m k with
  | some x => v x
  | Option.none => .ok default

/-- The failing field names contributed by one field result. -/
def fieldErrs (k : String) : Except String α → List String
  | .error _ => [k]
  | .ok _ => []

/-- The value of a successful field result (the default is dead code, used
only when the overall error list is nonempty). -/
def okD (r : Except String α) (default : α) : α :=
  match r with
  | .ok a => a
  | .error _ => default

/-- The `ModelConfig` record: name, base, path, motion_module required;
seed, steps, guidance_scale, prompt, n_prompt optional with the declared
defaults. -/
structure ModelConfig where
  name : String
  base : String
  path : String
  motion_module : String
  seed : List Int
  steps : Int
  guidance_scale : Rat
  prompt : List String
  n_prompt : List String
deriving Repr, DecidableEq

/-- Modelled from the spec: validation of the merged mapping against the
`ModelConfig` schema collects the failing field names (absent required
fields and type-incompatible values). -/
def ModelConfig.fieldErrors (m : JObject) : List String :=
  fieldErrs "name" (requiredField m "name" asStr) ++
  fieldErrs "base" (requiredField m "base" asStr) ++
  fieldErrs "path" (requiredField m "path" asPath) ++
  fieldErrs "motion_module" (requiredField m "motion_module" asPath) ++
  fieldErrs "seed" (optionalField m "seed" asIntList []) ++
  fieldErrs "steps" (optionalField m "steps" asInt 25) ++
  fieldErrs "guidance_scale" (optionalField m "guidance_scale" asFloat (7.5 : Rat)) ++
  fieldErrs "prompt" (optionalField m "prompt" asStrList []) ++
  fieldErrs "n_prompt" (optionalField m "n_prompt" asStrList [])

/-- Modelled from the spec: construction of a `ModelConfig` from the
merged mapping succeeds iff no field fails, applying declared defaults to
omitted optional fields; otherwise it fails with the failing field
names. -/
def ModelConfig.validate (m : JObject) : Except (List String) ModelConfig :=
  if ModelConfig.fieldErrors m = [] then
    .ok { name := okD (requiredField m "name" asStr) ""
          base := okD (requiredField m "base" asStr) ""
          path := okD (requiredField m "path" asPath) ""
          motion_module := okD (requiredField m "motion_module" asPath) ""
          seed := okD (optionalField m "seed" asIntList []) []
          steps := okD (optionalField m "steps" asInt 25) 25
          guidance_scale := okD (optionalField m "guidance_scale" asFloat (7.5 : Rat)) (7.5 : Rat)
          prompt := okD (optionalField m "prompt" asStrList []) []
          n_prompt := okD (optionalField m "n_prompt" asStrList []) [] }
  else
    .error (ModelConfig.fieldErrors m)

/-- The `InferenceConfig` record: two required free-form mappings. -/
structure InferenceConfig where
  unet_additional_kwargs : JObject
  noise_scheduler_kwargs : JObject
deriving Repr

/-- Modelled from the spec: validation of the merged mapping against the
`InferenceConfig` schema. -/
def InferenceConfig.fieldErrors (m : JObject) : List String :=
  fieldErrs "unet_additional_kwargs" (requiredField m "unet_additional_kwargs" asDict) ++
  fieldErrs "noise_scheduler_kwargs" (requiredField m "noise_scheduler_kwargs" asDict)

/-- Modelled from the spec: construction of an `InferenceConfig` from the
merged mapping. -/
def InferenceConfig.validate (m : JObject) : Except (List String) InferenceConfig :=
  if InferenceConfig.fieldErrors m = [] then
    .ok { unet_additional_kwargs := okD (requiredField m "unet_additional_kwargs" asDict) []
          noise_scheduler_kwargs := okD (requiredField m "noise_scheduler_kwargs" asDict) [] }
  else
    .error (InferenceConfig.fieldErrors m)

/-- Errors a config construction can raise: the loader's
`FileNotFoundError` or a validation error listing the failing fields. -/
inductive BuildError where
  | fileNotFound (e : FileNotFoundErr)
  | validation (fields : List String)
deriving Repr, DecidableEq

/-- Construction `ModelConfig(**init_kwargs)`: compose sources via
`JsonConfig.customise_sources` (class default `json_config_path = None`),
run the JSON source, merge first-wins, validate.  Environment variables
and secrets are further framework inputs, threaded through to show they
are dropped. -/
def ModelConfig.construct (fs : FS) (init_kwargs env secrets : JObject) :
    Except BuildError ModelConfig :=
  match buildValues (JsonConfig.customise_sources .null init_kwargs env secrets)
      "ModelConfig" fs with
  | .error e => .error (.fileNotFound e)
  | .ok m =>
    match ModelConfig.validate m with
    | .error es => .error (.validation es)
    | .ok c => .ok c

/-- Construction `InferenceConfig(**init_kwargs)`. -/
def InferenceConfig.construct (fs : FS) (init_kwargs env secrets : JObject) :
    Except BuildError InferenceConfig :=
  match buildValues (JsonConfig.customise_sources .null init_kwargs env secrets)
      "InferenceConfig" fs with
  | .error e => .error (.fileNotFound e)
  | .ok m =>
    match InferenceConfig.validate m with
    | .error es => .error (.validation es)
    | .ok c => .ok c

/-- Model of one call through `functools.lru_cache(maxsize=cap)` in cache
state `c` (most-recently-used first): the result, the new cache state, and
whether the wrapped function was invoked (i.e. a cache miss).  On a hit
the stored object itself is returned and moved to the front; on a miss the
result is computed and, when the call does not raise (CPython does not
cache raised exceptions), cached with the least-recently-used entry
evicted beyond capacity. -/
def cachedCall (cap : Nat) (f : String → Except ε α)
    (c : List (String × α)) (k : String) :
    Except ε α × List (String × α) × Bool :=
  match c.find? (fun kv => kv.1 = k) with
  | some kv => (.ok kv.2, (k, kv.2) :: c.filter (fun kv => kv.1 ≠ k), false)
  | Option.none =>
    match f k with
    | .error e => (.error e, c, true)
    | .ok v => (.ok v, ((k, v) :: c).take cap, true)

/-- The function cached by `get_model_config`:
`ModelConfig(json_config_path=config_path)`. -/
def modelConfigOf (fs : FS) (config_path : String) : Except BuildError ModelConfig :=
  ModelConfig.construct fs [("json_config_path", .path config_path)] [] []

/-- One call to `get_model_config(config_path)`, an `lru_cache(maxsize=2)`
wrapper around `ModelConfig(json_config_path=config_path)`. -/
def get_model_config (fs : FS) (c : List (String × ModelConfig))
    (config_path : String) :
    Except BuildError ModelConfig × List (String × ModelConfig) × Bool :=
  cachedCall 2 (modelConfigOf fs) c config_path

/-- Modelled from the spec: the default inference config path, a fixed
location under the application's config directory, evaluated once at
definition time (`get_dir("config").joinpath("inference/default.json")`;
`get_dir` is repository code outside the given sources). -/
def defaultInferConfigPath : String := "config/inference/default.json"

/-- The function cached by `get_infer_config`:
`InferenceConfig(json_config_path=config_path)`. -/
def inferConfigOf (fs : FS) (config_path : String) : Except BuildError InferenceConfig :=
  InferenceConfig.construct fs [("json_config_path", .path config_path)] [] []

/-- One call to `get_infer_config(config_path)`, an `lru_cache(maxsize=2)`
wrapper around `InferenceConfig(json_config_path=config_path)`; the
`config_path` parameter defaults to `defaultInferConfigPath` at the Python
call site. -/
def get_infer_config (fs : FS) (c : List (String × InferenceConfig))
    (config_path : String) :
    Except BuildError InferenceConfig × List (String × InferenceConfig) × Bool :=
  cachedCall 2 (inferConfigOf fs) c config_path

/-- The cache states reachable by a sequence of calls to a cached
accessor, starting from the empty cache. -/
def runCalls (step : List (String × α) → String →
    Except ε α × List (String × α) × Bool) (ks : List String) :
    List (String × α) :=
  ks.foldl (fun c k => (step c k).2.1) []

/-- A concrete config file content holding both the model-config and the
inference-config required fields (extra top-level keys are ignored by
validation). -/
def contentW : JObject :=
  [("name", .str "x"), ("base", .str "b"), ("path", .str "p"),
   ("motion_module", .str "mm"),
   ("unet_additional_kwargs", .obj []), ("noise_scheduler_kwargs", .obj [])]

/-- A concrete file system with three copies of `contentW`. -/
def fsW : FS := [("c1", contentW), ("c2", contentW), ("c3", contentW)]

/-- The `ModelConfig` that `contentW` validates to. -/
def mcW : ModelConfig := ⟨"x", "b", "p", "mm", [], 25, 7.5, [], []⟩

/-- The `InferenceConfig` that `contentW` validates to. -/
def icW : InferenceConfig := ⟨[], []⟩

/-! ### Dictionary lemmas -/

theorem lookupKey_cons (k₁ : String) (v₁ : JVal) (d : JObject) (k : String) :
    lookupKey ((k₁, v₁) :: d) k = if k₁ = k then some v₁ else lookupKey d k := by
  simp only [lookupKey, List.find?]
  by_cases h : k₁ = k <;> simp [h]

theorem lookupKey_map_set_ne (d : JObject) (k k' : String) (v : JVal)
    (h : k' ≠ k) :
    lookupKey (d.map (fun kv => if kv.1 = k then (k, v) else kv)) k' =
      lookupKey d k' := by
  induction d with
  | nil => rfl
  | cons hd tl ih =>
    obtain ⟨k₁, v₁⟩ := hd
    by_cases h₁ : k₁ = k
    · subst h₁
      have hmap : List.map (fun kv => if kv.1 = k₁ then (k₁, v) else kv)
          ((k₁, v₁) :: tl) =
          (k₁, v) :: List.map (fun kv => if kv.1 = k₁ then (k₁, v) else kv) tl := by
        simp
      rw [hmap, lookupKey_cons, lookupKey_cons, if_neg (fun hh => h hh.symm),
        if_neg (fun hh => h hh.symm), ih]
    · simp only [List.map_cons, if_neg h₁]
      rw [lookupKey_cons, lookupKey_cons, ih]

theorem lookupKey_map_set_self (d : JObject) (k : String) (v : JVal)
    (h : d.any (fun kv => kv.1 = k) = true) :
    lookupKey (d.map (fun kv => if kv.1 = k then (k, v) else kv)) k =
      some v := by
  induction d with
  | nil => simp at h
  | cons hd tl ih =>
    obtain ⟨k₁, v₁⟩ := hd
    by_cases h₁ : k₁ = k
    · subst h₁
      have hmap : List.map (fun kv => if kv.1 = k₁ then (k₁, v) else kv)
          ((k₁, v₁) :: tl) =
          (k₁, v) :: List.map (fun kv => if kv.1 = k₁ then (k₁, v) else kv) tl := by
        simp
      rw [hmap, lookupKey_cons, if_pos rfl]
    · have h' : tl.any (fun kv => kv.1 = k) = true := by
        simp only [List.any_cons] at h
        simpa [h₁] using h
      simp only [List.map_cons, if_neg h₁]
      rw [lookupKey_cons, if_neg h₁, ih h']

theorem lookupKey_append (d e : JObject) (k : String) :
    lookupKey (d ++ e) k = ((lookupKey d k).or (lookupKey e k)) := by
  induction d with
  | nil => rfl
  | cons hd tl ih =>
    obtain ⟨k₁, v₁⟩ := hd
    by_cases h₁ : k₁ = k
    · rw [List.cons_append, lookupKey_cons, if_pos h₁, lookupKey_cons,
        if_pos h₁]
      rfl
    · rw [List.cons_append, lookupKey_cons, if_neg h₁, lookupKey_cons,
        if_neg h₁, ih]

theorem lookupKey_eq_none_of_any_eq_false (d : JObject) (k : String)
    (h : d.any (fun kv => kv.1 = k) = false) : lookupKey d k = Option.none := by
  have hf : List.find? (fun kv => decide (kv.1 = k)) d = Option.none := by
    rw [List.find?_eq_none]
    intro x hx
    simp only [List.any_eq_false] at h
    simpa using h x hx
  simp [lookupKey, hf]

theorem lookupKey_setKey (d : JObject) (k k' : String) (v : JVal) :
    lookupKey (setKey d k v) k' = if k' = k then some v else lookupKey d k' := by
  unfold setKey
  by_cases hany : d.any (fun kv => kv.1 = k) = true
  · rw [if_pos hany]
    by_cases hk : k' = k
    · subst hk
      rw [if_pos rfl, lookupKey_map_set_self d k' v hany]
    · rw [if_neg hk, lookupKey_map_set_ne d k k' v hk]
  · rw [if_neg hany, lookupKey_append]
    by_cases hk : k' = k
    · subst hk
      rw [if_pos rfl,
        lookupKey_eq_none_of_any_eq_false d k' (Bool.eq_false_iff.mpr hany)]
      rw [lookupKey_cons]
      simp
    · rw [if_neg hk, lookupKey_cons, if_neg (fun hh => hk hh.symm)]
      simp [lookupKey]

theorem lookupKey_dictUpdate_of_none (d e : JObject) (k : String)
    (h : lookupKey e k = Option.none) :
    lookupKey (dictUpdate d e) k = lookupKey d k := by
  induction e generalizing d with
  | nil => rfl
  | cons hd tl ih =>
    obtain ⟨k₁, v₁⟩ := hd
    rw [lookupKey_cons] at h
    by_cases h₁ : k₁ = k
    · simp [h₁] at h
    · rw [if_neg h₁] at h
      show lookupKey (dictUpdate (setKey d k₁ v₁) tl) k = _
      rw [ih (setKey d k₁ v₁) h, lookupKey_setKey,
        if_neg (fun hh => h₁ hh.symm)]

theorem lookupKey_dictUpdate_of_some (d e : JObject) (k : String) (v : JVal)
    (hnd : (e.map Prod.fst).Nodup) (h : lookupKey e k = some v) :
    lookupKey (dictUpdate d e) k = some v := by
  induction e generalizing d with
  | nil => simp [lookupKey] at h
  | cons hd tl ih =>
    obtain ⟨k₁, v₁⟩ := hd
    rw [lookupKey_cons] at h
    simp only [List.map_cons, List.nodup_cons] at hnd
    by_cases h₁ : k₁ = k
    · rw [if_pos h₁] at h
      have htl : lookupKey tl k = Option.none := by
        apply lookupKey_eq_none_of_any_eq_false
        simp only [List.any_eq_false, decide_eq_true_eq]
        intro x hx hxk
        exact hnd.1 (h₁ ▸ hxk ▸ List.mem_map_of_mem Prod.fst hx)
      show lookupKey (dictUpdate (setKey d k₁ v₁) tl) k = _
      rw [lookupKey_dictUpdate_of_none _ _ _ htl, lookupKey_setKey,
        if_pos h₁.symm, h]
    · rw [if_neg h₁] at h
      exact ih (setKey d k₁ v₁) hnd.2 h

theorem lookupKey_filter_ne (d : JObject) (k₀ k : String) (h : k ≠ k₀) :
    lookupKey (d.filter (fun kv => kv.1 ≠ k₀)) k = lookupKey d k := by
  induction d with
  | nil => rfl
  | cons hd tl ih =>
    obtain ⟨k₁, v₁⟩ := hd
    by_cases h₁ : k₁ = k₀
    · subst h₁
      rw [lookupKey_cons, if_neg (fun hh => h hh.symm)]
      simpa using ih
    · rw [List.filter_cons_of_pos (by simpa using h₁), lookupKey_cons,
        lookupKey_cons, ih]

theorem lookupKey_filter_self (d : JObject) (k₀ : String) :
    lookupKey (d.filter (fun kv => kv.1 ≠ k₀)) k₀ = Option.none := by
  apply lookupKey_eq_none_of_any_eq_false
  simp only [List.any_eq_false, decide_eq_true_eq]
  intro x hx
  have := List.of_mem_filter hx
  simpa using this

theorem setKey_of_not_mem (d : JObject) (k : String) (v : JVal)
    (h : d.any (fun kv => kv.1 = k) = false) : setKey d k v = d ++ [(k, v)] := by
  simp [setKey, h]

theorem dictUpdate_disjoint (d e : JObject)
    (hnd : (e.map Prod.fst).Nodup)
    (hdisj : ∀ kv ∈ e, d.any (fun kv' => kv'.1 = kv.1) = false) :
    dictUpdate d e = d ++ e := by
  induction e generalizing d with
  | nil => simp [dictUpdate]
  | cons hd tl ih =>
    obtain ⟨k₁, v₁⟩ := hd
    simp only [List.map_cons, List.nodup_cons] at hnd
    have hk₁ : d.any (fun kv' => kv'.1 = k₁) = false :=
      hdisj (k₁, v₁) (List.mem_cons_self _ _)
    show dictUpdate (setKey d k₁ v₁) tl = d ++ (k₁, v₁) :: tl
    rw [setKey_of_not_mem d k₁ v₁ hk₁]
    have hd' : ∀ kv ∈ tl, (d ++ [(k₁, v₁)]).any (fun kv' => kv'.1 = kv.1) = false := by
      intro kv hkv
      simp only [List.any_append, Bool.or_eq_false_iff]
      refine ⟨hdisj kv (List.mem_cons_of_mem _ hkv), ?_⟩
      have hne : kv.1 ≠ k₁ := fun hh => hnd.1 (hh ▸ List.mem_map_of_mem Prod.fst hkv)
      simp only [List.any_cons, List.any_nil, Bool.or_false]
      simpa using fun hh => hne hh.symm
    rw [ih (d ++ [(k₁, v₁)]) hnd.2 hd']
    simp

theorem dictUpdate_nil_left (e : JObject) (hnd : (e.map Prod.fst).Nodup) :
    dictUpdate [] e = e := by
  rw [dictUpdate_disjoint [] e hnd (fun kv _ => rfl)]
  simp

theorem callLoop_error (classname : String) (fs : FS) (paths : List String)
    (i : Nat) (hi : i < paths.length)
    (hbad : fs.isFile paths[i] = false)
    (hgood : ∀ j (hj : j < paths.length), j < i → fs.isFile paths[j] = true)
    (merged : JObject) (idx : Nat) :
    callLoop classname fs merged idx paths =
      .error ⟨classname, idx + i + 1, paths[i]⟩ := by
  induction paths generalizing merged idx i with
  | nil => simp at hi
  | cons p rest ih =>
    cases i with
    | zero =>
      simp only [List.getElem_cons_zero] at hbad ⊢
      show (if fs.isFile p then _ else _) = _
      rw [if_neg (by simp [hbad])]
    | succ i' =>
      have hp : fs.isFile p = true := hgood 0 (by simp) (Nat.succ_pos _)
      have hi' : i' < rest.length := by simpa using hi
      have hbad' : fs.isFile rest[i'] = false := by
        simpa using hbad
      have hgood' : ∀ j (hj : j < rest.length), j < i' →
          fs.isFile rest[j] = true := by
        intro j hj hji
        have := hgood (j + 1) (by simpa using Nat.succ_lt_succ hj)
          (Nat.succ_lt_succ hji)
        simpa using this
      show (if fs.isFile p then _ else _) = _
      rw [if_pos hp]
      have := ih i' hi' hbad' hgood' (dictUpdate merged (fs.read p)) (idx + 1)
      rw [this]
      have harith : idx + 1 + i' + 1 = idx + (i' + 1) + 1 := by omega
      rw [harith]
      simp

/-! ### Claim theorems -/

/-- C10: constructed with zero paths — an empty list argument, and likewise
`json_config_path = None` — the JSON source returns an empty mapping and
raises no error, so only the other sources populate the config. -/
theorem jsonSource_empty_paths_ok (classname : String) (fs : FS) :
    (JsonSettingsSource.ofArg (.arr [])).call classname fs = .ok [] ∧
    (JsonSettingsSource.ofArg .null).call classname fs = .ok [] :=
  ⟨rfl, rfl⟩

/-- C1: for an ordered list `[A, B]` of existing JSON files, any top-level
key present in both files resolves to B's value in the merged mapping:
later paths override earlier ones on key collision. -/
theorem jsonSource_later_overrides (classname : String) (fs : FS)
    (A B k : String) (va vb : JVal)
    (hA : fs.isFile A = true) (hB : fs.isFile B = true)
    (hnd : ((fs.read B).map Prod.fst).Nodup)
    (_hva : lookupKey (fs.read A) k = some va)
    (hvb : lookupKey (fs.read B) k = some vb) :
    ∃ m, JsonSettingsSource.call ⟨[A, B]⟩ classname fs = .ok m ∧
      lookupKey m k = some vb := by
  refine ⟨dictUpdate (dictUpdate [] (fs.read A)) (fs.read B), ?_, ?_⟩
  · simp [JsonSettingsSource.call, callLoop, hA, hB]
  · exact lookupKey_dictUpdate_of_some _ _ _ _ hnd hvb

/-- Witness for C1 on concrete files: key "k" is in both files and
resolves to the later file's value 2. -/
theorem jsonSource_later_overrides_witness :
    ∃ m, JsonSettingsSource.call ⟨["a", "b"]⟩ "ModelConfig"
        [("a", [("k", .int 1)]), ("b", [("k", .int 2)])] = .ok m ∧
      lookupKey m "k" = some (.int 2) :=
  jsonSource_later_overrides "ModelConfig"
    [("a", [("k", .int 1)]), ("b", [("k", .int 2)])]
    "a" "b" "k" (.int 1) (.int 2) rfl rfl (by decide) rfl rfl

/-- C2: if the path at 0-based position `j` (1-based position `j + 1`) is
not an existing regular file and every earlier path is, the loader raises
a `FileNotFoundError` identifying exactly that path and the 1-based
position `j + 1`, and no merged mapping is returned to the caller. -/
theorem jsonSource_missing_path_error (classname : String) (fs : FS)
    (paths : List String) (j : Nat) (hj : j < paths.length)
    (hbad : fs.isFile paths[j] = false)
    (hgood : ∀ l (hl : l < paths.length), l < j → fs.isFile paths[l] = true) :
    JsonSettingsSource.call ⟨paths⟩ classname fs =
      .error ⟨classname, j + 1, paths[j]⟩ ∧
    ∀ m, JsonSettingsSource.call ⟨paths⟩ classname fs ≠ .ok m := by
  have h := callLoop_error classname fs paths j hj hbad hgood [] 0
  have h1 : JsonSettingsSource.call ⟨paths⟩ classname fs =
      .error ⟨classname, j + 1, paths[j]⟩ := by
    show callLoop classname fs [] 0 paths = _
    simpa using h
  refine ⟨h1, ?_⟩
  intro m hm
  rw [h1] at hm
  exact absurd hm (by simp)

/-- Witness for C2: with only "a" on disk, loading ["a", "b"] fails with
an error naming "b" and 1-based position 2. -/
theorem jsonSource_missing_path_error_witness :
    JsonSettingsSource.call ⟨["a", "b"]⟩ "ModelConfig" [("a", [])] =
      .error ⟨"ModelConfig", 2, "b"⟩ :=
  (jsonSource_missing_path_error "ModelConfig" [("a", [])] ["a", "b"] 1
    (by decide) rfl
    (by
      intro l hl hlt
      have hl0 : l = 0 := by omega
      subst hl0
      rfl)).1

theorem buildValues_eq_ok (S : SourcesResult) (cn : String) (fs : FS)
    (jm : JObject) (h : S.json_settings.call cn fs = .ok jm) :
    buildValues S cn fs = .ok (dictUpdate jm S.init_settings) := by
  unfold buildValues
  rw [h]

theorem buildValues_ok_inv (S : SourcesResult) (cn : String) (fs : FS)
    (m : JObject) (h : buildValues S cn fs = .ok m) :
    ∃ jm, S.json_settings.call cn fs = .ok jm ∧
      m = dictUpdate jm S.init_settings := by
  unfold buildValues at h
  rcases hc : S.json_settings.call cn fs with e | jm
  · rw [hc] at h
    cases h
  · rw [hc] at h
    refine ⟨jm, rfl, ?_⟩
    cases h
    rfl

theorem ModelConfig.validate_ok_steps (m : JObject) (c : ModelConfig) (n : Int)
    (hsteps : lookupKey m "steps" = some (.int n))
    (h : ModelConfig.validate m = .ok c) : c.steps = n := by
  unfold ModelConfig.validate at h
  by_cases he : ModelConfig.fieldErrors m = []
  · rw [if_pos he] at h
    cases h
    show okD (optionalField m "steps" asInt 25) 25 = n
    unfold optionalField
    rw [hsteps]
    rfl
  · rw [if_neg he] at h
    cases h

/-- C8: the `json_config_path` init argument is popped before sources are
composed: it never remains in the init settings mapping, and it selects the
JSON source's files — from the init argument when present, else from the
class-level default. -/
theorem json_config_path_popped (cls : JVal) (kwargs env secrets : JObject) :
    lookupKey (JsonConfig.customise_sources cls kwargs env secrets).init_settings
      "json_config_path" = Option.none ∧
    (∀ v, lookupKey kwargs "json_config_path" = some v →
      (JsonConfig.customise_sources cls kwargs env secrets).json_settings =
        JsonSettingsSource.ofArg v) ∧
    (lookupKey kwargs "json_config_path" = Option.none →
      (JsonConfig.customise_sources cls kwargs env secrets).json_settings =
        JsonSettingsSource.ofArg cls) := by
  refine ⟨?_, ?_, ?_⟩
  · exact lookupKey_filter_self kwargs "json_config_path"
  · intro v hv
    show JsonSettingsSource.ofArg
      ((lookupKey kwargs "json_config_path").getD cls) = _
    rw [hv]
    rfl
  · intro hnone
    show JsonSettingsSource.ofArg
      ((lookupKey kwargs "json_config_path").getD cls) = _
    rw [hnone]
    rfl

/-- Witness for C8: a concrete kwargs dict with `json_config_path` and one
data key. -/
theorem json_config_path_popped_witness :
    lookupKey (JsonConfig.customise_sources .null
        [("json_config_path", .path "a"), ("steps", .int 3)] [] []).init_settings
      "json_config_path" = Option.none ∧
    (JsonConfig.customise_sources .null
        [("json_config_path", .path "a"), ("steps", .int 3)] [] []).json_settings =
      JsonSettingsSource.ofArg (.path "a") :=
  ⟨(json_config_path_popped .null
      [("json_config_path", .path "a"), ("steps", .int 3)] [] []).1,
   (json_config_path_popped .null
      [("json_config_path", .path "a"), ("steps", .int 3)] [] []).2.1
      (.path "a") rfl⟩

/-- C9: two constructions with the same init kwargs and the same file
contents but different environment variables and secrets yield equal
results: environment and secrets sources do not participate in resolution
for these config types. -/
theorem env_and_secrets_not_consulted (fs : FS)
    (kwargs env1 secrets1 env2 secrets2 : JObject) :
    ModelConfig.construct fs kwargs env1 secrets1 =
      ModelConfig.construct fs kwargs env2 secrets2 ∧
    InferenceConfig.construct fs kwargs env1 secrets1 =
      InferenceConfig.construct fs kwargs env2 secrets2 :=
  ⟨rfl, rfl⟩

/-- C3: the source order is (init arguments, JSON source) and earlier
sources win: a key supplied both in the init kwargs and in the JSON
source's mapping resolves to the init-argument value in the merged
mapping; consequently an init-supplied `steps` value appears verbatim in a
successfully constructed `ModelConfig`. -/
theorem init_args_override_json (classname : String) (fs : FS) (cls : JVal)
    (kwargs env secrets : JObject) (k : String) (v w : JVal) (jm : JObject)
    (hnd : (kwargs.map Prod.fst).Nodup)
    (hk : k ≠ "json_config_path")
    (hv : lookupKey kwargs k = some v)
    (hjson : (JsonConfig.customise_sources cls kwargs env secrets).json_settings.call
        classname fs = .ok jm)
    (_hw : lookupKey jm k = some w) :
    (∃ m, buildValues (JsonConfig.customise_sources cls kwargs env secrets)
        classname fs = .ok m ∧ lookupKey m k = some v) ∧
    (∀ (kwargs' : JObject) (n : Int) (c : ModelConfig),
      (kwargs'.map Prod.fst).Nodup →
      lookupKey kwargs' "steps" = some (.int n) →
      ModelConfig.construct fs kwargs' env secrets = .ok c →
      c.steps = n) := by
  constructor
  · refine ⟨dictUpdate jm
      (JsonConfig.customise_sources cls kwargs env secrets).init_settings,
      buildValues_eq_ok _ _ _ _ hjson, ?_⟩
    have hfil : lookupKey
        ((JsonConfig.customise_sources cls kwargs env secrets).init_settings) k =
        some v := by
      show lookupKey (kwargs.filter fun kv => kv.1 ≠ "json_config_path") k = some v
      rw [lookupKey_filter_ne kwargs "json_config_path" k hk, hv]
    have hnd' : (((JsonConfig.customise_sources cls kwargs env
        secrets).init_settings).map Prod.fst).Nodup := by
      show ((kwargs.filter fun kv => kv.1 ≠ "json_config_path").map Prod.fst).Nodup
      exact hnd.sublist (kwargs.filter_sublist.map Prod.fst)
    exact lookupKey_dictUpdate_of_some _ _ _ _ hnd' hfil
  · intro kwargs' n c hnd' hsteps hok
    rcases hbv : buildValues (JsonConfig.customise_sources .null kwargs' env
        secrets) "ModelConfig" fs with e | m
    · unfold ModelConfig.construct at hok
      rw [hbv] at hok
      cases hok
    · unfold ModelConfig.construct at hok
      rw [hbv] at hok
      obtain ⟨jm', hcall', hm⟩ := buildValues_ok_inv _ _ _ _ hbv
      have hmk : lookupKey m "steps" = some (.int n) := by
        subst hm
        have hfil : lookupKey
            ((JsonConfig.customise_sources .null kwargs' env
              secrets).init_settings) "steps" = some (.int n) := by
          show lookupKey (kwargs'.filter fun kv => kv.1 ≠ "json_config_path")
            "steps" = some (.int n)
          rw [lookupKey_filter_ne kwargs' "json_config_path" "steps" (by decide),
            hsteps]
        have hnd'' : (((JsonConfig.customise_sources .null kwargs' env
            secrets).init_settings).map Prod.fst).Nodup := by
          show ((kwargs'.filter fun kv => kv.1 ≠ "json_config_path").map
            Prod.fst).Nodup
          exact hnd'.sublist (kwargs'.filter_sublist.map Prod.fst)
        exact lookupKey_dictUpdate_of_some _ _ _ _ hnd'' hfil
      have hok2 : (match ModelConfig.validate m with
          | Except.error es => Except.error (BuildError.validation es)
          | Except.ok c0 => Except.ok c0) = Except.ok c := hok
      rcases hval : ModelConfig.validate m with es | c'
      · rw [hval] at hok2
        cases hok2
      · rw [hval] at hok2
        cases hok2
        exact ModelConfig.validate_ok_steps _ _ _ hmk hval

theorem ModelConfig.construct_of_buildValues_ok (fs : FS)
    (kwargs env secrets : JObject) (m : JObject)
    (h : buildValues (JsonConfig.customise_sources .null kwargs env secrets)
      "ModelConfig" fs = .ok m) :
    ModelConfig.construct fs kwargs env secrets =
      match ModelConfig.validate m with
      | .error es => .error (.validation es)
      | .ok c => .ok c := by
  unfold ModelConfig.construct
  rw [h]

/-- C6: a model-config JSON holding exactly the four required fields
(name, base, path, motion_module as strings) constructs successfully via
the model-config accessor, and every omitted optional field gets its
documented default: seed=[], steps=25, guidance_scale=7.5, prompt=[],
n_prompt=[]. -/
theorem modelConfig_defaults (fs : FS) (p n b pa mm : String)
    (hfile : fs.isFile p = true)
    (hread : fs.read p = [("name", .str n), ("base", .str b),
      ("path", .str pa), ("motion_module", .str mm)]) :
    modelConfigOf fs p = .ok ⟨n, b, pa, mm, [], 25, 7.5, [], []⟩ ∧
    get_model_config fs [] p =
      (.ok ⟨n, b, pa, mm, [], 25, 7.5, [], []⟩,
       [(p, ⟨n, b, pa, mm, [], 25, 7.5, [], []⟩)], true) := by
  have hcall : (JsonSettingsSource.mk [p]).call "ModelConfig" fs =
      .ok (dictUpdate [] (fs.read p)) := by
    simp [JsonSettingsSource.call, callLoop, hfile]
  have hbv := buildValues_eq_ok
    (JsonConfig.customise_sources .null [("json_config_path", .path p)] [] [])
    "ModelConfig" fs (dictUpdate [] (fs.read p)) hcall
  rw [hread] at hbv
  have hnodup : (([("name", JVal.str n), ("base", JVal.str b),
      ("path", JVal.str pa), ("motion_module", JVal.str mm)] :
      JObject).map Prod.fst).Nodup := by
    simp
  have hmerge : dictUpdate [] [("name", JVal.str n), ("base", JVal.str b),
      ("path", JVal.str pa), ("motion_module", JVal.str mm)] =
      [("name", JVal.str n), ("base", JVal.str b), ("path", JVal.str pa),
        ("motion_module", JVal.str mm)] :=
    dictUpdate_nil_left _ hnodup
  have hbv' : buildValues
      (JsonConfig.customise_sources .null [("json_config_path", .path p)] [] [])
      "ModelConfig" fs =
      .ok [("name", JVal.str n), ("base", JVal.str b), ("path", JVal.str pa),
        ("motion_module", JVal.str mm)] := by
    rw [hbv]
    show Except.ok (dictUpdate [] [("name", JVal.str n), ("base", JVal.str b),
      ("path", JVal.str pa), ("motion_module", JVal.str mm)]) = _
    rw [hmerge]
  have h1 : modelConfigOf fs p = .ok ⟨n, b, pa, mm, [], 25, 7.5, [], []⟩ := by
    show ModelConfig.construct fs [("json_config_path", .path p)] [] [] = _
    rw [ModelConfig.construct_of_buildValues_ok fs _ [] [] _ hbv']
    rfl
  refine ⟨h1, ?_⟩
  show cachedCall 2 (modelConfigOf fs) [] p = _
  unfold cachedCall
  rw [show (([] : List (String × ModelConfig)).find? (fun kv => kv.1 = p)) =
    Option.none from rfl]
  rw [h1]
  rfl

/-- Witness for C6: the spec's example JSON, on a concrete file system. -/
theorem modelConfig_defaults_witness :
    modelConfigOf [("model.json",
      [("name", .str "x"), ("base", .str "b"), ("path", .str "m.ckpt"),
        ("motion_module", .str "mm.ckpt")])] "model.json" =
      .ok ⟨"x", "b", "m.ckpt", "mm.ckpt", [], 25, 7.5, [], []⟩ :=
  (modelConfig_defaults [("model.json",
      [("name", .str "x"), ("base", .str "b"), ("path", .str "m.ckpt"),
        ("motion_module", .str "mm.ckpt")])]
    "model.json" "x" "b" "m.ckpt" "mm.ckpt" rfl rfl).1

theorem mem_fieldErrors_of_required_missing (m : JObject) (f : String)
    (hf : f ∈ (["name", "base", "path", "motion_module"] : List String))
    (h : lookupKey m f = Option.none) : f ∈ ModelConfig.fieldErrors m := by
  unfold ModelConfig.fieldErrors
  fin_cases hf <;> simp [fieldErrs, requiredField, h]

theorem mem_fieldErrors_of_path_int (m : JObject) (n : Int)
    (h : lookupKey m "path" = some (.int n)) :
    "path" ∈ ModelConfig.fieldErrors m := by
  unfold ModelConfig.fieldErrors
  simp [fieldErrs, requiredField, asPath, h]

theorem ModelConfig.validate_error_of_mem (m : JObject) (f : String)
    (hf : f ∈ ModelConfig.fieldErrors m) :
    ModelConfig.validate m = .error (ModelConfig.fieldErrors m) := by
  unfold ModelConfig.validate
  rw [if_neg (fun hemp => by simp [hemp] at hf)]

theorem modelConfigOf_buildValues (fs : FS) (p : String)
    (hfile : fs.isFile p = true) (hnd : ((fs.read p).map Prod.fst).Nodup) :
    buildValues (JsonConfig.customise_sources .null
      [("json_config_path", .path p)] [] []) "ModelConfig" fs =
      .ok (fs.read p) := by
  have hcall : (JsonSettingsSource.mk [p]).call "ModelConfig" fs =
      .ok (dictUpdate [] (fs.read p)) := by
    simp [JsonSettingsSource.call, callLoop, hfile]
  have hbv := buildValues_eq_ok
    (JsonConfig.customise_sources .null [("json_config_path", .path p)] [] [])
    "ModelConfig" fs (dictUpdate [] (fs.read p)) hcall
  rw [hbv]
  show Except.ok (dictUpdate [] (fs.read p)) = _
  rw [dictUpdate_nil_left _ hnd]

/-- C7: a merged mapping missing a required model-config field (or holding
a type-incompatible value, e.g. an integer for `path`) fails validation
with an error surfacing the failing field, and the error propagates to the
accessor's caller uncaught. -/
theorem modelConfig_validation_failure (m : JObject) :
    (∀ f, f ∈ (["name", "base", "path", "motion_module"] : List String) →
      lookupKey m f = Option.none →
      ∃ es, ModelConfig.validate m = .error es ∧ f ∈ es) ∧
    (∀ n : Int, lookupKey m "path" = some (.int n) →
      ∃ es, ModelConfig.validate m = .error es ∧ "path" ∈ es) ∧
    (∀ (fs : FS) (p : String) (es : List String),
      fs.isFile p = true → fs.read p = m → (m.map Prod.fst).Nodup →
      ModelConfig.validate m = .error es →
      modelConfigOf fs p = .error (.validation es) ∧
      get_model_config fs [] p = (.error (.validation es), [], true)) := by
  refine ⟨?_, ?_, ?_⟩
  · intro f hf h
    have hmem := mem_fieldErrors_of_required_missing m f hf h
    exact ⟨_, ModelConfig.validate_error_of_mem m f hmem, hmem⟩
  · intro n h
    have hmem := mem_fieldErrors_of_path_int m n h
    exact ⟨_, ModelConfig.validate_error_of_mem m "path" hmem, hmem⟩
  · intro fs p es hfile hread hnd hval
    have hnd' : ((fs.read p).map Prod.fst).Nodup := by
      rw [hread]
      exact hnd
    have hbv' := modelConfigOf_buildValues fs p hfile hnd'
    rw [hread] at hbv'
    have h1 : modelConfigOf fs p = .error (.validation es) := by
      show ModelConfig.construct fs [("json_config_path", .path p)] [] [] = _
      rw [ModelConfig.construct_of_buildValues_ok fs _ [] [] _ hbv', hval]
    refine ⟨h1, ?_⟩
    show cachedCall 2 (modelConfigOf fs) [] p = _
    unfold cachedCall
    rw [show (([] : List (String × ModelConfig)).find? (fun kv => kv.1 = p)) =
      Option.none from rfl]
    rw [h1]

/-- Witness for C7: a mapping with only `name` is missing `path`;
validation fails naming "path". -/
theorem modelConfig_validation_failure_witness :
    ∃ es, ModelConfig.validate [("name", .str "x")] = .error es ∧
      "path" ∈ es :=
  (modelConfig_validation_failure [("name", .str "x")]).1 "path"
    (by decide) rfl

theorem cachedCall_lru_scenario {ε α : Type} (f : String → Except ε α)
    (p1 p2 p3 : String) (v1 v2 v3 : α)
    (h12 : p1 ≠ p2) (h13 : p1 ≠ p3) (h23 : p2 ≠ p3)
    (hv1 : f p1 = .ok v1) (hv2 : f p2 = .ok v2) (hv3 : f p3 = .ok v3) :
    cachedCall 2 f [] p1 = (.ok v1, [(p1, v1)], true) ∧
    cachedCall 2 f [(p1, v1)] p2 = (.ok v2, [(p2, v2), (p1, v1)], true) ∧
    cachedCall 2 f [(p2, v2), (p1, v1)] p1 =
      (.ok v1, [(p1, v1), (p2, v2)], false) ∧
    cachedCall 2 f [(p2, v2), (p1, v1)] p2 =
      (.ok v2, [(p2, v2), (p1, v1)], false) ∧
    cachedCall 2 f [(p2, v2), (p1, v1)] p3 =
      (.ok v3, [(p3, v3), (p2, v2)], true) ∧
    cachedCall 2 f [(p3, v3), (p2, v2)] p1 =
      (.ok v1, [(p1, v1), (p3, v3)], true) := by
  refine ⟨?_, ?_, ?_, ?_, ?_, ?_⟩
  · simp [cachedCall, hv1]
  · simp [cachedCall, List.find?, h12, hv2]
  · simp [cachedCall, List.find?, h12.symm, List.filter]
  · simp [cachedCall, List.find?, h12, List.filter]
  · simp [cachedCall, List.find?, h13, h23, hv3]
  · simp [cachedCall, List.find?, h13.symm, h12.symm, hv1]

/-- C4: for each cached accessor, a repeated call with an equal path
returns the stored object itself with no re-construction (miss flag
false), up to the capacity of 2; a third distinct path evicts the
least-recently-used entry, and a subsequent call for the evicted path
re-constructs (miss flag true). -/
theorem cached_accessor_lru (fs : FS) (p1 p2 p3 : String)
    (h12 : p1 ≠ p2) (h13 : p1 ≠ p3) (h23 : p2 ≠ p3)
    (v1 v2 v3 : ModelConfig) (w1 w2 w3 : InferenceConfig)
    (hv1 : modelConfigOf fs p1 = .ok v1)
    (hv2 : modelConfigOf fs p2 = .ok v2)
    (hv3 : modelConfigOf fs p3 = .ok v3)
    (hw1 : inferConfigOf fs p1 = .ok w1)
    (hw2 : inferConfigOf fs p2 = .ok w2)
    (hw3 : inferConfigOf fs p3 = .ok w3) :
    (get_model_config fs [] p1 = (.ok v1, [(p1, v1)], true) ∧
     get_model_config fs [(p1, v1)] p2 =
       (.ok v2, [(p2, v2), (p1, v1)], true) ∧
     get_model_config fs [(p2, v2), (p1, v1)] p1 =
       (.ok v1, [(p1, v1), (p2, v2)], false) ∧
     get_model_config fs [(p2, v2), (p1, v1)] p2 =
       (.ok v2, [(p2, v2), (p1, v1)], false) ∧
     get_model_config fs [(p2, v2), (p1, v1)] p3 =
       (.ok v3, [(p3, v3), (p2, v2)], true) ∧
     get_model_config fs [(p3, v3), (p2, v2)] p1 =
       (.ok v1, [(p1, v1), (p3, v3)], true)) ∧
    (get_infer_config fs [] p1 = (.ok w1, [(p1, w1)], true) ∧
     get_infer_config fs [(p1, w1)] p2 =
       (.ok w2, [(p2, w2), (p1, w1)], true) ∧
     get_infer_config fs [(p2, w2), (p1, w1)] p1 =
       (.ok w1, [(p1, w1), (p2, w2)], false) ∧
     get_infer_config fs [(p2, w2), (p1, w1)] p2 =
       (.ok w2, [(p2, w2), (p1, w1)], false) ∧
     get_infer_config fs [(p2, w2), (p1, w1)] p3 =
       (.ok w3, [(p3, w3), (p2, w2)], true) ∧
     get_infer_config fs [(p3, w3), (p2, w2)] p1 =
       (.ok w1, [(p1, w1), (p3, w3)], true)) :=
  ⟨cachedCall_lru_scenario (modelConfigOf fs) p1 p2 p3 v1 v2 v3
      h12 h13 h23 hv1 hv2 hv3,
   cachedCall_lru_scenario (inferConfigOf fs) p1 p2 p3 w1 w2 w3
      h12 h13 h23 hw1 hw2 hw3⟩

/-- Witness for C4: on a concrete file system, the first call through each
accessor is a miss that caches the constructed config. -/
theorem cached_accessor_lru_witness :
    get_model_config fsW [] "c1" = (.ok mcW, [("c1", mcW)], true) ∧
    get_infer_config fsW [] "c1" = (.ok icW, [("c1", icW)], true) :=
  ⟨(cached_accessor_lru fsW "c1" "c2" "c3" (by decide) (by decide) (by decide)
      mcW mcW mcW icW icW icW rfl rfl rfl rfl rfl rfl).1.1,
   (cached_accessor_lru fsW "c1" "c2" "c3" (by decide) (by decide) (by decide)
      mcW mcW mcW icW icW icW rfl rfl rfl rfl rfl rfl).2.1⟩

theorem cachedCall_preserves_nodup {ε α : Type} (cap : Nat)
    (f : String → Except ε α) (c : List (String × α)) (k : String)
    (h : (c.map Prod.fst).Nodup) :
    (((cachedCall cap f c k).2.1).map Prod.fst).Nodup := by
  rcases hf : c.find? (fun kv => kv.1 = k) with _ | kv
  · rcases hfk : f k with e | v
    · have hstep : cachedCall cap f c k = (.error e, c, true) := by
        unfold cachedCall
        rw [hf, hfk]
      rw [hstep]
      simpa using h
    · have hstep : cachedCall cap f c k =
          (.ok v, ((k, v) :: c).take cap, true) := by
        unfold cachedCall
        rw [hf, hfk]
      rw [hstep]
      have hk : k ∉ c.map Prod.fst := by
        rw [List.find?_eq_none] at hf
        intro hmem
        obtain ⟨x, hx, hxk⟩ := List.mem_map.mp hmem
        exact absurd hxk (by simpa using hf x hx)
      have hfull : (((k, v) :: c).map Prod.fst).Nodup := by
        simp only [List.map_cons]
        exact List.nodup_cons.mpr ⟨hk, h⟩
      exact hfull.sublist ((List.take_sublist cap _).map Prod.fst)
  · have hstep : cachedCall cap f c k =
        (.ok kv.2, (k, kv.2) :: c.filter (fun kv => kv.1 ≠ k), false) := by
      unfold cachedCall
      rw [hf]
    rw [hstep]
    simp only [List.map_cons]
    refine List.nodup_cons.mpr ⟨?_, ?_⟩
    · intro hmem
      obtain ⟨x, hx, hxk⟩ := List.mem_map.mp hmem
      have hmf := List.of_mem_filter hx
      have hne : x.1 ≠ k := by simpa using hmf
      exact hne hxk
    · exact h.sublist ((c.filter_sublist).map Prod.fst)

theorem runCalls_nodup {ε α : Type} (cap : Nat) (f : String → Except ε α)
    (ks : List String) :
    ((runCalls (cachedCall cap f) ks).map Prod.fst).Nodup := by
  suffices h : ∀ c : List (String × α), (c.map Prod.fst).Nodup →
      ((ks.foldl (fun c k => (cachedCall cap f c k).2.1) c).map Prod.fst).Nodup by
    exact h [] (by simp)
  induction ks with
  | nil =>
    intro c hc
    simpa using hc
  | cons k rest ih =>
    intro c hc
    exact ih _ (cachedCall_preserves_nodup cap f c k hc)

/-- C5: every cache state reachable by a sequence of calls to a cached
accessor holds at most one entry per distinct config file path. -/
theorem cache_one_entry_per_path (fs : FS) (ks ks2 : List String) :
    ((runCalls (get_model_config fs) ks).map Prod.fst).Nodup ∧
    ((runCalls (get_infer_config fs) ks2).map Prod.fst).Nodup :=
  ⟨runCalls_nodup 2 (modelConfigOf fs) ks,
   runCalls_nodup 2 (inferConfigOf fs) ks2⟩

/-- Witness for C3: `steps` supplied as init argument (3) and in the JSON
file (99) resolves to the init value 3 in the merged mapping. -/
theorem init_args_override_json_witness :
    (∃ m, buildValues (JsonConfig.customise_sources .null
        [("json_config_path", .path "cfg"), ("steps", .int 3)] [] [])
        "ModelConfig" [("cfg", [("steps", .int 99)])] = .ok m ∧
      lookupKey m "steps" = some (.int 3)) ∧
    (∀ (kwargs' : JObject) (n : Int) (c : ModelConfig),
      (kwargs'.map Prod.fst).Nodup →
      lookupKey kwargs' "steps" = some (.int n) →
      ModelConfig.construct [("cfg", [("steps", .int 99)])] kwargs' [] [] =
        .ok c →
      c.steps = n) :=
  init_args_override_json "ModelConfig" [("cfg", [("steps", .int 99)])] .null
    [("json_config_path", .path "cfg"), ("steps", .int 3)] [] [] "steps"
    (.int 3) (.int 99) [("steps", .int 99)] (by decide) (by decide) rfl rfl rfl
